import Mathlib

/-!
Verification of the enron event-log summarizer (src/summarize-enron.py).

The event table is modelled after loading: each event carries its timestamp as
milliseconds since the epoch, the sender address, and the raw pipe-separated
recipient field.  The aggregation core (get_summaries, the top-sender slice,
and the two quarter-bucketed series) is embedded as pure functions; the
calendar arithmetic models the pandas Grouper with business-quarter-start
frequency anchored to January, which is what the source passes to groupby.
-/

namespace SummarizeEnron

/-- One loaded event: time in epoch milliseconds, sender, raw recipient field
(pipe-separated list of addresses), mirroring the columns the script keeps. -/
structure Event where
  time : Nat
  sender : String
  recipient : String
deriving DecidableEq

/-- The constant TOP_SENDERS = 5 from the script. -/
def TOP_SENDERS : Nat := 5

/-- One row of the summary dataframe: person, sent, received. -/
structure Row where
  person : String
  sent : Nat
  received : Nat
deriving DecidableEq

/-- emails_sent: the sender column as a list (one entry per event). -/
def emailsSent (df : List Event) : List String := df.map Event.sender

/-- Character-level split on the pipe, matching the semantics of the split
call in the script (an executable model of str.split without a separator
argument mismatch: empty pieces are kept, an empty field gives one piece). -/
def splitPipeAux : List Char → List Char → List String
  | [], acc => [String.mk acc.reverse]
  | c :: cs, acc =>
    if c = '|' then String.mk acc.reverse :: splitPipeAux cs []
    else splitPipeAux cs (c :: acc)

/-- split of a recipient field on "|". -/
def splitPipe (s : String) : List String := splitPipeAux s.data []

/-- emails_received: every recipient occurrence, obtained by splitting each
event's recipient field on "|" and chaining the pieces. -/
def emailsReceived (df : List Event) : List String :=
  (df.map (fun e => splitPipe e.recipient)).flatten

/-- people = set(senders + recipients): the distinct addresses seen as sender
or as split-off recipient. -/
def people (df : List Event) : List String :=
  (emailsSent df ++ emailsReceived df).dedup

/-- Descending-by-sent comparison used for sort_values(by=sent, ascending=False). -/
def rowLe (a b : Row) : Prop := b.sent ≤ a.sent

instance : DecidableRel rowLe := fun a b => Nat.decLe b.sent a.sent

instance : IsTotal Row rowLe := ⟨fun a b => Nat.le_total b.sent a.sent⟩

instance : IsTrans Row rowLe := ⟨fun _ _ _ hab hbc => Nat.le_trans hbc hab⟩

/-- The unsorted summary rows: for each person, the Counter lookups
sender_ctr[person] and recipient_ctr[person]. -/
def rawSummary (df : List Event) : List Row :=
  (people df).map (fun p => ⟨p, (emailsSent df).count p, (emailsReceived df).count p⟩)

/-- get_summaries: the per-person summary, sorted by sent descending.
(sort_values performs no secondary sort; ties are in unspecified order.) -/
def get_summaries (df : List Event) : List Row :=
  List.insertionSort rowLe (rawSummary df)

/-- list(summary[person][0:TOP_SENDERS]) from main. -/
def topSenders (df : List Event) : List String :=
  ((get_summaries df).map Row.person).take TOP_SENDERS

/-- Day of week of a day count since 1970-01-01; 0 = Sunday (day 0 was a Thursday). -/
def weekday (d : Nat) : Nat := (d + 4) % 7

/-- Days since 1970-01-01 of the civil date (y, m, 1), by Hinnant's algorithm
(valid for the post-epoch dates the data set holds). -/
def dfc0 (y m : Nat) : Nat :=
  let yy := if m ≤ 2 then y - 1 else y
  let era := yy / 400
  let yoe := yy % 400
  let mp := (m + 9) % 12
  let doy := (153 * mp + 2) / 5
  let doe := yoe * 365 + yoe / 4 - yoe / 100 + doy
  era * 146097 + doe - 719468

/-- Days since 1970-01-01 of the civil date (y, m, d). -/
def daysFromCivil (y m d : Nat) : Nat := dfc0 y m + (d - 1)

/-- Civil date (year, month, day) of a day count since 1970-01-01. -/
def civilFromDays (days : Nat) : Nat × Nat × Nat :=
  let z := days + 719468
  let era := z / 146097
  let doe := z % 146097
  let yoe := (doe - doe / 1460 + doe / 36524 - doe / 146096) / 365
  let y := yoe + era * 400
  let doy := doe - (365 * yoe + yoe / 4 - yoe / 100)
  let mp := (5 * doy + 2) / 153
  let d := doy - (153 * mp + 2) / 5 + 1
  let m := if mp < 10 then mp + 3 else mp - 9
  (if m ≤ 2 then y + 1 else y, m, d)

/-- First business day (Monday to Friday, pandas BusinessDay convention) of a
month: the 1st, or the following Monday when the 1st is a weekend day. -/
def firstBusinessDayOfMonth (y m : Nat) : Nat :=
  if weekday (daysFromCivil y m 1) = 0 then daysFromCivil y m 1 + 1
  else if weekday (daysFromCivil y m 1) = 6 then daysFromCivil y m 1 + 2
  else daysFromCivil y m 1

/-- Quarter start months of the BQS-JAN anchoring. -/
def quarterMonths : List Nat := [1, 4, 7, 10]

/-- Whether a day is a BQS-JAN offset date: the first business day of a
January-anchored quarter month. -/
def isBqsDate (d : Nat) : Bool :=
  decide ((civilFromDays d).2.1 ∈ quarterMonths) &&
    d == firstBusinessDayOfMonth (civilFromDays d).1 (civilFromDays d).2.1

/-- The bucket label the BQS-JAN left-closed Grouper assigns to a day: the
greatest BQS-JAN date on or before it (pandas rolls the first edge back onto
the offset and bins half-open to the next edge). -/
def bqsBucket : Nat → Nat
  | 0 => 0
  | d + 1 => if isBqsDate (d + 1) then d + 1 else bqsBucket d

/-- Milliseconds per day. -/
def msPerDay : Nat := 86400000

/-- The calendar day of an event (bin edges sit at midnight, so the day
determines the bin). -/
def eventDay (e : Event) : Nat := e.time / msPerDay

/-- Quarter bucket (label = bucket start day) of an event. -/
def bucketOf (e : Event) : Nat := bqsBucket (eventDay e)

/-- Lexicographic order on code points, the order pandas sorts string group
keys in (executable stand-in for String order). -/
def natListLe : List Nat → List Nat → Bool
  | [], _ => true
  | _ :: _, [] => false
  | a :: as, b :: bs => if a < b then true else if b < a then false else natListLe as bs

/-- String comparison by code points. -/
def strLe (a b : String) : Bool :=
  natListLe (a.data.map Char.toNat) (b.data.map Char.toNat)

/-- The dense table produced by groupby(...).unstack(fill_value=0): row index,
column index, and the cell values (0 where the group was empty). -/
structure DenseTable where
  rows : List Nat
  cols : List String
  cell : Nat → String → Nat

/-- get_top_senders_graph aggregation: filter to top senders, group by
(quarter bucket, sender), count, unstack with zero fill.  Rows are the
observed buckets ascending, columns the observed senders sorted. -/
def get_top_senders_graph (df : List Event) (top : List String) : DenseTable :=
  { rows := List.insertionSort (· ≤ ·)
      (((df.filter (fun e => e.sender ∈ top)).map bucketOf).dedup)
  , cols := List.insertionSort (fun a b => strLe a b = true)
      (((df.filter (fun e => e.sender ∈ top)).map Event.sender).dedup)
  , cell := fun b s => ((df.filter (fun e => e.sender ∈ top)).filter
      (fun e => bucketOf e = b ∧ e.sender = s)).length }

/-- The concatenated frame get_top_senders_received builds: for each top
sender s, the events whose split recipient list contains s, with the
recipient column overwritten by s (kept here as the label of the pair). -/
def labeledReceived (df : List Event) (top : List String) : List (String × Event) :=
  top.flatMap (fun s => (df.filter (fun e => s ∈ splitPipe e.recipient)).map (fun e => (s, e)))

/-- get_top_senders_received aggregation: group the concatenated frame by
(quarter bucket, recipient label) and count distinct senders per group,
unstacked with zero fill. -/
def get_top_senders_received (df : List Event) (top : List String) : DenseTable :=
  { rows := List.insertionSort (· ≤ ·)
      (((labeledReceived df top).map (fun pe => bucketOf pe.2)).dedup)
  , cols := List.insertionSort (fun a b => strLe a b = true)
      (((labeledReceived df top).map Prod.fst).dedup)
  , cell := fun b s =>
      ((((labeledReceived df top).filter (fun pe => pe.1 = s ∧ bucketOf pe.2 = b)).map
          (fun pe => pe.2.sender)).dedup).length }

/-- summary_file = base + "-summary.csv". -/
def summaryFile (base : String) : String := base ++ "-summary.csv"

/-- top_sender_sent_file = base + "-top-sender-sent.png". -/
def topSenderSentFile (base : String) : String := base ++ "-top-sender-sent.png"

/-- top_sender_received_file = base + "-top-sender-received.png". -/
def topSenderReceivedFile (base : String) : String := base ++ "-top-sender-received.png"

/-- The two savefig targets of main, in order: both calls pass
top_sender_sent_file (the second savefig at line 176 reuses it). -/
def chartFilesSaved (base : String) : List String :=
  [topSenderSentFile base, topSenderSentFile base]

/-- Terminal outcome of a run of main. -/
inductive Outcome where
  | usageError
  | inputNotFound
  | success
deriving DecidableEq

/-- Observable effects of a run of main. -/
structure RunResult where
  outcome : Outcome
  exitCode : Int
  usagePrinted : Bool
  errorPrinted : Bool
  filesWritten : List String
deriving DecidableEq

/-- Control flow of main: wrong argument count prints usage and exits 1;
a missing input file prints an error and exits -1; otherwise the summary csv
is written and the two savefig calls run (a run on a readable well-formed
file is modelled as succeeding, the loader being an external collaborator). -/
def runMain (argc : Nat) (inputExists : Bool) (base : String) : RunResult :=
  if argc ≠ 2 then ⟨Outcome.usageError, 1, true, false, []⟩
  else if inputExists = false then ⟨Outcome.inputNotFound, -1, false, true, []⟩
  else ⟨Outcome.success, 0, false, false, summaryFile base :: chartFilesSaved base⟩

/-- Example table: three events on the first days of 1970; the third event is
a self-send ("a" appears in its own recipient list). -/
def exDf : List Event :=
  [⟨0, "a", "b|c|b"⟩, ⟨86400000, "b", "a"⟩, ⟨172800000, "a", "a|b"⟩]

/-- Example table for the bucketing counterexamples: a single event on
1972-01-05, in the first quarter whose month starts on a weekend. -/
def exDf3 : List Event := [⟨63417600000, "a", "b"⟩]

/-- Example table for the density counterexample: the only sender is active in
the first and third quarters of 1970 and silent in the second. -/
def exDf4 : List Event := [⟨0, "a", "b"⟩, ⟨15638400000, "a", "b"⟩]

theorem sum_map_add_split (s : List β) (f g : β → Nat) :
    (s.map (fun b => f b + g b)).sum = (s.map f).sum + (s.map g).sum := by
  induction s with
  | nil => simp
  | cons c s ih => simp [ih]; omega

theorem sum_map_ite_eq_zero [DecidableEq α] (s : List α) (a : α) (h : a ∉ s) :
    (s.map (fun b => if a = b then 1 else 0)).sum = 0 := by
  induction s with
  | nil => simp
  | cons c s ih =>
    have hac : a ≠ c := fun hh => h (hh ▸ List.mem_cons_self c s)
    have hs : a ∉ s := fun hh => h (List.mem_cons_of_mem c hh)
    simp [hac, ih hs]

theorem sum_map_ite_eq_one [DecidableEq α] (s : List α) (a : α) (hs : s.Nodup)
    (ha : a ∈ s) : (s.map (fun b => if a = b then 1 else 0)).sum = 1 := by
  induction s with
  | nil => cases ha
  | cons c s ih =>
    rcases List.mem_cons.mp ha with h | h
    · subst h
      have : a ∉ s := (List.nodup_cons.mp hs).1
      simp [sum_map_ite_eq_zero s a this]
    · have hac : a ≠ c := by
        rintro rfl; exact (List.nodup_cons.mp hs).1 h
      simp [hac, ih (List.nodup_cons.mp hs).2 h]

theorem sum_map_count [DecidableEq α] (s l : List α) (hs : s.Nodup)
    (hl : ∀ a ∈ l, a ∈ s) : (s.map (fun p => l.count p)).sum = l.length := by
  induction l with
  | nil => simp
  | cons a l ih =>
    have hcongr : (s.map (fun p => (a :: l).count p)) =
        (s.map (fun p => l.count p + (if a = p then 1 else 0))) := by
      apply List.map_congr_left
      intro p _
      rw [List.count_cons]
      simp
    rw [hcongr, sum_map_add_split, ih (fun x hx => hl x (List.mem_cons_of_mem a hx)),
      sum_map_ite_eq_one s a hs (hl a (List.mem_cons_self a l))]
    simp

theorem length_filter_cons (p : α → Bool) (a : α) (l : List α) :
    ((a :: l).filter p).length = (if p a then 1 else 0) + (l.filter p).length := by
  rw [List.filter_cons]
  split <;> simp [Nat.add_comm]

theorem sum_map_filter_key [DecidableEq β] (s : List β) (l : List α) (k : α → β)
    (hs : s.Nodup) (hl : ∀ a ∈ l, k a ∈ s) :
    (s.map (fun b => (l.filter (fun x => k x = b)).length)).sum = l.length := by
  induction l with
  | nil => simp
  | cons a l ih =>
    have hcongr : (s.map (fun b => ((a :: l).filter (fun x => k x = b)).length)) =
        (s.map (fun b => (if k a = b then 1 else 0) +
          (l.filter (fun x => k x = b)).length)) := by
      apply List.map_congr_left
      intro b _
      rw [length_filter_cons]
      simp
    rw [hcongr, sum_map_add_split,
      sum_map_ite_eq_one s (k a) hs (hl a (List.mem_cons_self a l)),
      ih (fun x hx => hl x (List.mem_cons_of_mem a hx))]
    simp [Nat.add_comm]

theorem mem_people_of_sent (df : List Event) (a : String) (h : a ∈ emailsSent df) :
    a ∈ people df :=
  List.mem_dedup.mpr (List.mem_append_left _ h)

theorem mem_people_of_received (df : List Event) (a : String)
    (h : a ∈ emailsReceived df) : a ∈ people df :=
  List.mem_dedup.mpr (List.mem_append_right _ h)

theorem get_summaries_perm (df : List Event) :
    List.Perm (get_summaries df) (rawSummary df) :=
  List.perm_insertionSort rowLe (rawSummary df)

/-- Claim C1: for every non-empty event table, the sent column of the summary
sums to the number of events, and the received column sums to the number of
(event, recipient-occurrence) pairs obtained by splitting each recipient field
on the pipe (occurrences counted, not deduplicated within one event). -/
theorem summary_sent_received_totals (df : List Event) (h : df ≠ []) :
    ((get_summaries df).map Row.sent).sum = df.length ∧
    ((get_summaries df).map Row.received).sum = (emailsReceived df).length := by
  have hperm := get_summaries_perm df
  constructor
  · rw [(hperm.map Row.sent).sum_eq]
    rw [rawSummary, List.map_map]
    have : (Row.sent ∘ fun p => (⟨p, (emailsSent df).count p,
        (emailsReceived df).count p⟩ : Row)) = fun p => (emailsSent df).count p := rfl
    rw [this, sum_map_count (people df) (emailsSent df) (List.nodup_dedup _)
      (mem_people_of_sent df)]
    exact List.length_map df Event.sender
  · rw [(hperm.map Row.received).sum_eq]
    rw [rawSummary, List.map_map]
    have : (Row.received ∘ fun p => (⟨p, (emailsSent df).count p,
        (emailsReceived df).count p⟩ : Row)) = fun p => (emailsReceived df).count p := rfl
    rw [this]
    exact sum_map_count (people df) (emailsReceived df) (List.nodup_dedup _)
      (mem_people_of_received df)

/-- Claim C1 witness at a concrete table. -/
theorem summary_sent_received_totals_check :
    ((get_summaries exDf).map Row.sent).sum = exDf.length ∧
    ((get_summaries exDf).map Row.received).sum = (emailsReceived exDf).length :=
  summary_sent_received_totals exDf (by decide)

theorem mem_emailsSent (df : List Event) (p : String) :
    p ∈ emailsSent df ↔ ∃ e ∈ df, e.sender = p := by
  simp [emailsSent]

theorem mem_emailsReceived (df : List Event) (p : String) :
    p ∈ emailsReceived df ↔ ∃ e ∈ df, p ∈ splitPipe e.recipient := by
  simp [emailsReceived, List.mem_flatten]

theorem rawSummary_persons (df : List Event) :
    (rawSummary df).map Row.person = people df := by
  rw [rawSummary, List.map_map]
  exact List.map_id (people df)

/-- Claim C2: the summary has exactly one row for each distinct string that
occurs as a sender or as a split-off recipient of some event, and no others;
a person seen only as recipient has sent = 0, one seen only as sender has
received = 0. -/
theorem summary_covers_each_person_once (df : List Event) :
    ((get_summaries df).map Row.person).Nodup ∧
    (∀ p, p ∈ (get_summaries df).map Row.person ↔
      ((∃ e ∈ df, e.sender = p) ∨ (∃ e ∈ df, p ∈ splitPipe e.recipient))) ∧
    (∀ r, r ∈ get_summaries df →
      ((¬ ∃ e ∈ df, e.sender = r.person) → r.sent = 0) ∧
      ((¬ ∃ e ∈ df, r.person ∈ splitPipe e.recipient) → r.received = 0)) := by
  have hpermp : List.Perm ((get_summaries df).map Row.person) (people df) := by
    rw [← rawSummary_persons df]
    exact (get_summaries_perm df).map Row.person
  refine ⟨?_, ?_, ?_⟩
  · exact hpermp.symm.nodup (List.nodup_dedup _)
  · intro p
    rw [hpermp.mem_iff, people, List.mem_dedup, List.mem_append,
      mem_emailsSent df p, mem_emailsReceived df p]
  · intro r hr
    have hraw : r ∈ rawSummary df := (get_summaries_perm df).subset hr
    obtain ⟨p, _, hp⟩ := List.mem_map.mp hraw
    constructor
    · intro hno
      have : r.person ∉ emailsSent df := fun hmem =>
        hno ((mem_emailsSent df r.person).mp hmem)
      rw [← hp] at this ⊢
      exact List.count_eq_zero.mpr this
    · intro hno
      have : r.person ∉ emailsReceived df := fun hmem =>
        hno ((mem_emailsReceived df r.person).mp hmem)
      rw [← hp] at this ⊢
      exact List.count_eq_zero.mpr this

/-- Claim C2 witness at a concrete table. -/
theorem summary_covers_each_person_once_check :
    ("c" ∈ (get_summaries exDf).map Row.person) ∧ (⟨"c", 0, 1⟩ : Row).sent = 0 :=
  ⟨(summary_covers_each_person_once exDf).2.1 "c" |>.mpr
      (Or.inr ⟨⟨0, "a", "b|c|b"⟩, by decide, by decide⟩),
   ((summary_covers_each_person_once exDf).2.2 ⟨"c", 0, 1⟩ (by decide)).1 (by decide)⟩

/-- Claim C7: the summary is sorted by the sent column in descending order;
for all adjacent rows, the earlier row's sent count is at least the later
row's (ties in unspecified order). -/
theorem summary_sorted_by_sent_descending (df : List Event) (i : Nat)
    (h : i + 1 < (get_summaries df).length) :
    ((get_summaries df).getD (i + 1) ⟨"", 0, 0⟩).sent ≤
      ((get_summaries df).getD i ⟨"", 0, 0⟩).sent := by
  have hs : List.Sorted rowLe (get_summaries df) :=
    List.sorted_insertionSort rowLe (rawSummary df)
  have h0 : i < (get_summaries df).length := Nat.lt_of_succ_lt h
  rw [List.getD_eq_getElem _ _ h, List.getD_eq_getElem _ _ h0]
  have := List.pairwise_iff_get.mp hs ⟨i, h0⟩ ⟨i + 1, h⟩ (by simp [Fin.mk_lt_mk])
  simpa [rowLe] using this

/-- Claim C7 witness at a concrete table. -/
theorem summary_sorted_by_sent_descending_check :
    ((get_summaries exDf).getD 1 ⟨"", 0, 0⟩).sent ≤
      ((get_summaries exDf).getD 0 ⟨"", 0, 0⟩).sent :=
  summary_sorted_by_sent_descending exDf 0 (by decide)

/-- Claim C8: the top-N selection is the first min(N, distinct person count)
person identifiers of the sorted summary, an initial segment of it, with N
the constant TOP_SENDERS = 5; no re-sorting and no threshold filtering. -/
theorem top_senders_initial_segment (df : List Event) :
    topSenders df = ((get_summaries df).map Row.person).take TOP_SENDERS ∧
    TOP_SENDERS = 5 ∧
    (topSenders df).length = min TOP_SENDERS (people df).length ∧
    topSenders df <+: (get_summaries df).map Row.person := by
  refine ⟨rfl, rfl, ?_, List.take_prefix _ _⟩
  have hlen : ((get_summaries df).map Row.person).length = (people df).length := by
    rw [List.length_map, (get_summaries_perm df).length_eq, rawSummary, List.length_map]
  rw [topSenders]
  simpa [hlen] using List.length_take TOP_SENDERS ((get_summaries df).map Row.person)

/-- Claim C10: a self-send (the sender also occurs in the event's own split
recipient list) is counted in both tallies of that person's row: sent and
received are the full independent counts and both include the event. -/
theorem self_send_counts_in_both_tallies (df : List Event) (e : Event)
    (he : e ∈ df) (hself : e.sender ∈ splitPipe e.recipient) :
    ∃ r ∈ get_summaries df, r.person = e.sender ∧
      r.sent = (emailsSent df).count e.sender ∧
      r.received = (emailsReceived df).count e.sender ∧
      1 ≤ r.sent ∧ 1 ≤ r.received := by
  have hsent : e.sender ∈ emailsSent df := (mem_emailsSent df e.sender).mpr ⟨e, he, rfl⟩
  have hrecv : e.sender ∈ emailsReceived df :=
    (mem_emailsReceived df e.sender).mpr ⟨e, he, hself⟩
  have hp : e.sender ∈ people df := mem_people_of_sent df _ hsent
  refine ⟨⟨e.sender, (emailsSent df).count e.sender, (emailsReceived df).count e.sender⟩,
    ?_, rfl, rfl, rfl, ?_, ?_⟩
  · exact (get_summaries_perm df).symm.subset (List.mem_map.mpr ⟨e.sender, hp, rfl⟩)
  · exact List.count_pos_iff.mpr hsent
  · exact List.count_pos_iff.mpr hrecv

/-- Claim C10 witness at a concrete self-send. -/
theorem self_send_counts_in_both_tallies_check :
    ∃ r ∈ get_summaries exDf, r.person = "a" ∧
      r.sent = (emailsSent exDf).count "a" ∧
      r.received = (emailsReceived exDf).count "a" ∧ 1 ≤ r.sent ∧ 1 ≤ r.received :=
  self_send_counts_in_both_tallies exDf ⟨172800000, "a", "a|b"⟩ (by decide) (by decide)

/-- Claim C9: the run fails exactly on a wrong argument count or a missing
input file; a wrong argument count prints the usage text and exits non-zero, a
missing input prints an error and exits non-zero, and neither failure writes
any output file. -/
theorem main_error_paths_write_nothing (argc : Nat) (ex : Bool) (base : String) :
    ((runMain argc ex base).exitCode ≠ 0 ↔ (argc ≠ 2 ∨ ex = false)) ∧
    (argc ≠ 2 → (runMain argc ex base).outcome = Outcome.usageError ∧
      (runMain argc ex base).usagePrinted = true ∧
      (runMain argc ex base).exitCode ≠ 0 ∧ (runMain argc ex base).filesWritten = []) ∧
    (argc = 2 → ex = false → (runMain argc ex base).outcome = Outcome.inputNotFound ∧
      (runMain argc ex base).errorPrinted = true ∧
      (runMain argc ex base).exitCode ≠ 0 ∧ (runMain argc ex base).filesWritten = []) ∧
    (argc = 2 → ex = true → (runMain argc ex base).outcome = Outcome.success ∧
      (runMain argc ex base).exitCode = 0 ∧
      (runMain argc ex base).filesWritten = summaryFile base :: chartFilesSaved base) := by
  by_cases h : argc = 2 <;> cases ex <;> simp [runMain, h]

/-- Claim C9 witness at concrete argument counts. -/
theorem main_error_paths_write_nothing_check :
    (runMain 3 true "x").filesWritten = [] ∧ (runMain 2 false "x").filesWritten = [] :=
  ⟨((main_error_paths_write_nothing 3 true "x").2.1 (by decide)).2.2.2,
   ((main_error_paths_write_nothing 2 false "x").2.2.1 rfl rfl).2.2.2⟩

/-- Claim C6 is violated by the code: main saves both rendered charts to
top_sender_sent_file (the second savefig call reuses the sent path), so the
received chart is never written to its own distinct path. -/
theorem both_charts_saved_to_sent_path :
    chartFilesSaved "enron-event-history-all" =
      ["enron-event-history-all-top-sender-sent.png",
       "enron-event-history-all-top-sender-sent.png"] ∧
    (runMain 2 true "enron-event-history-all").filesWritten =
      ["enron-event-history-all-summary.csv",
       "enron-event-history-all-top-sender-sent.png",
       "enron-event-history-all-top-sender-sent.png"] ∧
    topSenderReceivedFile "enron-event-history-all" ∉
      (runMain 2 true "enron-event-history-all").filesWritten ∧
    topSenderSentFile "enron-event-history-all" ≠
      topSenderReceivedFile "enron-event-history-all" := by decide

theorem bqsBucket_spec (d : Nat) :
    bqsBucket d ≤ d ∧ isBqsDate (bqsBucket d) = true ∧
    ∀ e, bqsBucket d < e → e ≤ d → isBqsDate e = false := by
  induction d with
  | zero =>
    refine ⟨Nat.le_refl 0, by decide, ?_⟩
    intro e h1 h2
    exact absurd (Nat.lt_of_lt_of_le h1 h2) (Nat.lt_irrefl 0)
  | succ n ih =>
    by_cases h : isBqsDate (n + 1) = true
    · have hb : bqsBucket (n + 1) = n + 1 := by simp [bqsBucket, h]
      refine ⟨Nat.le_of_eq hb, ?_, ?_⟩
      · rw [hb]; exact h
      · intro e h1 h2
        rw [hb] at h1
        exact absurd (Nat.lt_of_lt_of_le h1 h2) (Nat.lt_irrefl _)
    · have hb : bqsBucket (n + 1) = bqsBucket n := by simp [bqsBucket, h]
      refine ⟨?_, ?_, ?_⟩
      · rw [hb]; exact Nat.le_succ_of_le ih.1
      · rw [hb]; exact ih.2.1
      · intro e h1 h2
        rw [hb] at h1
        rcases Nat.eq_or_lt_of_le h2 with heq | hlt
        · subst heq
          simpa using h
        · exact ih.2.2 e h1 (Nat.lt_succ_iff.mp hlt)

/-- Claim C3 counterexample: on a table holding one event dated 1972-01-05
(day 734), both quarter-bucketed re-aggregations use the bucket starting at
day 732 = 1972-01-03, a Monday: the start boundary is the 3rd of January, not
the 1st, because 1972-01-01 was a Saturday and the BQS-JAN grouper anchors to
the first business day of the quarter month. -/
theorem bucket_start_not_always_first_of_month :
    exDf3.map eventDay = [734] ∧ civilFromDays 734 = (1972, 1, 5) ∧
    (get_top_senders_graph exDf3 (topSenders exDf3)).rows = [732] ∧
    (get_top_senders_received exDf3 (topSenders exDf3)).rows = [732] ∧
    civilFromDays 732 = (1972, 1, 3) ∧ (civilFromDays 732).2.2 ≠ 1 := by decide

/-- Claim C3 (amended): every quarter bucket used by the two re-aggregations
starts at a BQS-JAN date: the bucket assigned to a day is the greatest such
date on or before it (so buckets are the half-open spans between consecutive
boundaries), and every boundary is the first business day (its weekday is
Monday through Friday) of a January-anchored quarter month, namely the 1st,
2nd or 3rd of January, April, July or October — not always the 1st.  The
anchoring is to the calendar, independent of the first event's date. -/
theorem bucket_starts_are_first_business_days (d : Nat) :
    bqsBucket d ≤ d ∧
    isBqsDate (bqsBucket d) = true ∧
    (∀ e, bqsBucket d < e → e ≤ d → isBqsDate e = false) ∧
    (∃ y m, m ∈ quarterMonths ∧ bqsBucket d = firstBusinessDayOfMonth y m) ∧
    (∀ y m, (firstBusinessDayOfMonth y m = daysFromCivil y m 1 ∨
             firstBusinessDayOfMonth y m = daysFromCivil y m 2 ∨
             firstBusinessDayOfMonth y m = daysFromCivil y m 3) ∧
       weekday (firstBusinessDayOfMonth y m) ≠ 0 ∧
       weekday (firstBusinessDayOfMonth y m) ≠ 6) := by
  obtain ⟨h1, h2, h3⟩ := bqsBucket_spec d
  refine ⟨h1, h2, h3, ?_, ?_⟩
  · have h2b := h2
    rw [isBqsDate] at h2b
    simp only [Bool.and_eq_true, decide_eq_true_eq, beq_iff_eq] at h2b
    exact ⟨(civilFromDays (bqsBucket d)).1, (civilFromDays (bqsBucket d)).2.1,
      h2b.1, h2b.2⟩
  · intro y m
    constructor
    · unfold firstBusinessDayOfMonth daysFromCivil
      split
      · right; left; omega
      · split
        · right; right; omega
        · left; omega
    · unfold firstBusinessDayOfMonth weekday daysFromCivil
      split
      · constructor <;> omega
      · split
        · constructor <;> omega
        · constructor <;> omega

/-- Claim C3 witness: concrete discharge at day 734 (the buckets of 1972);
day 733 lies strictly between the bucket start and the day, and is no
boundary. -/
theorem bucket_starts_are_first_business_days_check :
    bqsBucket 734 ≤ 734 ∧ isBqsDate 733 = false :=
  ⟨(bucket_starts_are_first_business_days 734).1,
   (bucket_starts_are_first_business_days 734).2.2.1 733 (by decide) (by decide)⟩

theorem dedup_length_eq_of_mem_iff [DecidableEq α] (l₁ l₂ : List α)
    (h : ∀ x, x ∈ l₁ ↔ x ∈ l₂) : l₁.dedup.length = l₂.dedup.length := by
  rw [← List.card_toFinset, ← List.card_toFinset]
  congr 1
  ext x
  simp [h x]

theorem mem_labeledReceived (df : List Event) (top : List String)
    (pe : String × Event) :
    pe ∈ labeledReceived df top ↔
      pe.1 ∈ top ∧ pe.2 ∈ df ∧ pe.1 ∈ splitPipe pe.2.recipient := by
  constructor
  · intro h
    obtain ⟨t, ht, h2⟩ := List.mem_flatMap.mp h
    obtain ⟨e, he, heq⟩ := List.mem_map.mp h2
    obtain ⟨hedf, hsplit⟩ := List.mem_filter.mp he
    subst heq
    exact ⟨ht, hedf, by simpa using hsplit⟩
  · intro h
    apply List.mem_flatMap.mpr
    refine ⟨pe.1, h.1, List.mem_map.mpr ⟨pe.2,
      List.mem_filter.mpr ⟨h.2.1, by simpa using h.2.2⟩, rfl⟩⟩

/-- Claim C4 counterexample: the only sender of exDf4 is active in the first
and third quarters of 1970 only; the second-quarter boundary (day 90) lies
strictly inside the dataset's bucket range yet gets no row, so no cell exists
for it, and the top sender "b" (zero events sent) gets no column at all. -/
theorem sent_series_skips_empty_quarter :
    (get_top_senders_graph exDf4 (topSenders exDf4)).rows = [0, 181] ∧
    isBqsDate 90 = true ∧ (0 : Nat) < 90 ∧ (90 : Nat) < 181 ∧
    90 ∉ (get_top_senders_graph exDf4 (topSenders exDf4)).rows ∧
    "b" ∈ topSenders exDf4 ∧
    "b" ∉ (get_top_senders_graph exDf4 (topSenders exDf4)).cols := by decide

/-- Claim C4 (amended): the sent-volume series has rows exactly for the
buckets in which some listed top sender sent at least one event (strictly
ascending; a quarter inside the span in which no top sender sent anything is
absent rather than zero-filled), columns exactly for the top senders with at
least one sent event, an explicit zero cell whenever a present sender sent
nothing in a present bucket, and, for every present sender, cells summing to
that sender's total sent count. -/
theorem sent_series_cells_and_sums (df : List Event) (top : List String) :
    (get_top_senders_graph df top).rows.Pairwise (· < ·) ∧
    (∀ b, b ∈ (get_top_senders_graph df top).rows ↔
      ∃ e ∈ df, e.sender ∈ top ∧ bucketOf e = b) ∧
    (∀ s, s ∈ (get_top_senders_graph df top).cols ↔
      ∃ e ∈ df, e.sender ∈ top ∧ e.sender = s) ∧
    (∀ b s, (¬ ∃ e ∈ df, e.sender = s ∧ bucketOf e = b) →
      (get_top_senders_graph df top).cell b s = 0) ∧
    (∀ s, s ∈ (get_top_senders_graph df top).cols →
      ((get_top_senders_graph df top).rows.map
          (fun b => (get_top_senders_graph df top).cell b s)).sum =
        (df.filter (fun e => e.sender = s)).length) := by
  have hrows : (get_top_senders_graph df top).rows =
      List.insertionSort (· ≤ ·)
        (((df.filter (fun e => e.sender ∈ top)).map bucketOf).dedup) := rfl
  have hcols : (get_top_senders_graph df top).cols =
      List.insertionSort (fun a b => strLe a b = true)
        (((df.filter (fun e => e.sender ∈ top)).map Event.sender).dedup) := rfl
  have hcell : ∀ b s, (get_top_senders_graph df top).cell b s =
      ((df.filter (fun e => e.sender ∈ top)).filter
        (fun e => bucketOf e = b ∧ e.sender = s)).length := fun _ _ => rfl
  have hnd : (List.insertionSort (· ≤ ·)
      (((df.filter (fun e => e.sender ∈ top)).map bucketOf).dedup)).Nodup :=
    (List.perm_insertionSort _ _).nodup_iff.mpr (List.nodup_dedup _)
  refine ⟨?_, ?_, ?_, ?_, ?_⟩
  · rw [hrows]
    exact (List.sorted_insertionSort _ _).lt_of_le hnd
  · intro b
    rw [hrows, List.mem_insertionSort, List.mem_dedup, List.mem_map]
    constructor
    · rintro ⟨e, he, hbe⟩
      obtain ⟨hedf, hmem⟩ := List.mem_filter.mp he
      exact ⟨e, hedf, by simpa using hmem, hbe⟩
    · rintro ⟨e, hedf, htop, hbe⟩
      exact ⟨e, List.mem_filter.mpr ⟨hedf, by simpa using htop⟩, hbe⟩
  · intro s
    rw [hcols, List.mem_insertionSort, List.mem_dedup, List.mem_map]
    constructor
    · rintro ⟨e, he, hse⟩
      obtain ⟨hedf, hmem⟩ := List.mem_filter.mp he
      exact ⟨e, hedf, by simpa using hmem, hse⟩
    · rintro ⟨e, hedf, htop, hse⟩
      exact ⟨e, List.mem_filter.mpr ⟨hedf, by simpa using htop⟩, hse⟩
  · intro b s hno
    rw [hcell b s, List.length_eq_zero]
    apply List.filter_eq_nil_iff.mpr
    intro e he hpe
    have hpe2 : bucketOf e = b ∧ e.sender = s := by simpa using hpe
    exact hno ⟨e, List.mem_of_mem_filter he, hpe2.2, hpe2.1⟩
  · intro s hs
    have hstop : s ∈ top := by
      rw [hcols, List.mem_insertionSort, List.mem_dedup, List.mem_map] at hs
      obtain ⟨e, he, hse⟩ := hs
      obtain ⟨_, hmem⟩ := List.mem_filter.mp he
      rw [← hse]
      simpa using hmem
    have hstep : ∀ b, (get_top_senders_graph df top).cell b s =
        (((df.filter (fun e => e.sender ∈ top)).filter
            (fun e => e.sender = s)).filter (fun x => bucketOf x = b)).length := by
      intro b
      rw [hcell b s]
      apply congrArg List.length
      rw [List.filter_filter, List.filter_filter, List.filter_filter]
      apply List.filter_congr
      intro e _
      simp [Bool.decide_and, Bool.and_assoc]
    have hmapc : ((get_top_senders_graph df top).rows.map
        (fun b => (get_top_senders_graph df top).cell b s)) =
        ((get_top_senders_graph df top).rows.map (fun b =>
          (((df.filter (fun e => e.sender ∈ top)).filter
              (fun e => e.sender = s)).filter (fun x => bucketOf x = b)).length)) :=
      List.map_congr_left (fun b _ => hstep b)
    have hsub : ∀ x ∈ (df.filter (fun e => e.sender ∈ top)).filter
        (fun e => e.sender = s),
        bucketOf x ∈ List.insertionSort (· ≤ ·)
          (((df.filter (fun e => e.sender ∈ top)).map bucketOf).dedup) := by
      intro x hx
      rw [List.mem_insertionSort, List.mem_dedup]
      exact List.mem_map_of_mem bucketOf (List.mem_of_mem_filter hx)
    rw [hmapc, hrows, sum_map_filter_key _ _ bucketOf hnd hsub]
    apply congrArg List.length
    rw [List.filter_filter]
    apply List.filter_congr
    intro e _
    by_cases hse : e.sender = s
    · simp [hse, hstop]
    · simp [hse]

/-- Claim C4 witness: concrete discharge on exDf4, at the absent-pair cell
(90, a) and at the column sum of sender a. -/
theorem sent_series_cells_and_sums_check :
    (get_top_senders_graph exDf4 (topSenders exDf4)).cell 90 "a" = 0 ∧
    ((get_top_senders_graph exDf4 (topSenders exDf4)).rows.map
        (fun b => (get_top_senders_graph exDf4 (topSenders exDf4)).cell b "a")).sum =
      (exDf4.filter (fun e => e.sender = "a")).length :=
  ⟨(sent_series_cells_and_sums exDf4 (topSenders exDf4)).2.2.2.1 90 "a" (by decide),
   (sent_series_cells_and_sums exDf4 (topSenders exDf4)).2.2.2.2 "a" (by decide)⟩

/-- Claim C5: in the unique-received series, the cell of a bucket and a
listed top sender s counts the distinct senders of the events whose split
recipient list contains s and whose timestamp falls in that bucket —
deduplicated within the bucket only, not cumulative across buckets, and not
the total message count. -/
theorem received_series_counts_distinct_contacts (df : List Event)
    (top : List String) (s : String)
    (hs : s ∈ (get_top_senders_received df top).cols) (b : Nat) :
    (get_top_senders_received df top).cell b s =
      (((df.filter (fun e => s ∈ splitPipe e.recipient ∧ bucketOf e = b)).map
          Event.sender).dedup).length := by
  have hstop : s ∈ top := by
    have hc : (get_top_senders_received df top).cols =
        List.insertionSort (fun a b => strLe a b = true)
          (((labeledReceived df top).map Prod.fst).dedup) := rfl
    rw [hc, List.mem_insertionSort, List.mem_dedup, List.mem_map] at hs
    obtain ⟨pe, hpe, hfst⟩ := hs
    have hlab := (mem_labeledReceived df top pe).mp hpe
    rw [← hfst]
    exact hlab.1
  have hcell : (get_top_senders_received df top).cell b s =
      ((((labeledReceived df top).filter
          (fun pe => pe.1 = s ∧ bucketOf pe.2 = b)).map
          (fun pe => pe.2.sender)).dedup).length := rfl
  rw [hcell]
  apply dedup_length_eq_of_mem_iff
  intro x
  rw [List.mem_map, List.mem_map]
  constructor
  · rintro ⟨pe, hpe, hx⟩
    obtain ⟨hmem, hcond⟩ := List.mem_filter.mp hpe
    have hcond2 : pe.1 = s ∧ bucketOf pe.2 = b := by simpa using hcond
    have hlab := (mem_labeledReceived df top pe).mp hmem
    refine ⟨pe.2, List.mem_filter.mpr ⟨hlab.2.1, ?_⟩, hx⟩
    have hsp : s ∈ splitPipe pe.2.recipient := hcond2.1 ▸ hlab.2.2
    simp [hsp, hcond2.2]
  · rintro ⟨e, he, hx⟩
    obtain ⟨hedf, hcond⟩ := List.mem_filter.mp he
    have hcond2 : s ∈ splitPipe e.recipient ∧ bucketOf e = b := by simpa using hcond
    refine ⟨(s, e), List.mem_filter.mpr ⟨?_, ?_⟩, hx⟩
    · exact (mem_labeledReceived df top (s, e)).mpr ⟨hstop, hedf, hcond2.1⟩
    · simp [hcond2.2]

/-- Claim C5 witness at a concrete table and the pipeline's top-sender set. -/
theorem received_series_counts_distinct_contacts_check :
    (get_top_senders_received exDf (topSenders exDf)).cell 0 "a" =
      (((exDf.filter (fun e => "a" ∈ splitPipe e.recipient ∧ bucketOf e = 0)).map
          Event.sender).dedup).length :=
  received_series_counts_distinct_contacts exDf (topSenders exDf) "a" (by decide) 0

end SummarizeEnron
